import Mathlib

/-!
Verification of the nntrainer tflite interpreter/export path
(`nntrainer/compiler/tflite_interpreter.cpp`) against its design document.

The embedding follows the source file closely:
* `BidirectionalIndexMap` embeds the generic bidirectional index map
  (an `std::unordered_map<T, unsigned>` paired with an `std::vector<T>`);
  the hash map is embedded as an association list, since only lookup
  semantics (not hash order) are observable.
* `TfOpNode`, `TfOpIdxMap`, `buildOpNodes`, the three NYI section builder
  stubs, the model builder and `builder2file` embed the rest of the
  translation unit; C pointers (`const Var_Grad *`, `const float *`) are
  embedded as address-tagged records resp. raw address values.
* Exceptions (`NNTR_THROW_IF` / `throw std::invalid_argument`) are embedded
  as `Except Err`; the distinct message texts of the source are embedded as
  the distinct constructors of `Err`.
-/

namespace NntrainerTfl

/-- Raw machine address: embeds a C pointer value such as `const float *`
(the raw weight-buffer identity returned by `Tensor::getData()`). -/
abbrev Ptr := Nat

/-- The `tflite::BuiltinOperator` enumeration of the external flatbuffer
schema (`tf_schema_generated.h`). Only `FULLY_CONNECTED` is mentioned by
this translation unit; a sample of further schema members is included so
that the type is not degenerate. -/
inductive BuiltinOperator where
  | FULLY_CONNECTED
  | ADD
  | CONV_2D
  deriving DecidableEq, Repr

/-- Error kinds raised by the export path. In the source all are thrown as
`std::invalid_argument` with distinct messages; the constructors embed the
distinct messages ("not supported type", "Cannot find index for key",
"Cannot find data for index", "Verifying serialized model failed",
"failed to open"). -/
inductive Err where
  | UnsupportedOperator
  | KeyNotFound
  | IndexOutOfRange
  | VerificationFailed
  | IOFailure
  deriving DecidableEq, Repr

/-- Association-list lookup; embeds `data2index.find(key)` on the
`std::unordered_map<T, unsigned>` (hash order is not observable through
`find`, so an association list is a faithful embedding). -/
def lookupIdx {T : Type} [DecidableEq T] : List (T × Nat) → T → Option Nat
  | [], _ => none
  | p :: rest, key => if key = p.1 then some p.2 else lookupIdx rest key

/-- First index of a key in a plain list (`none` when absent). Used to state
the coherence invariant between the two directions of the map. -/
def firstIdx {T : Type} [DecidableEq T] : List T → T → Option Nat
  | [], _ => none
  | x :: xs, key => if key = x then some 0 else (firstIdx xs key).map (· + 1)

/-- `BidirectionalIndexMap<T>` of tflite_interpreter.cpp:
`data2index` embeds the `std::unordered_map<T, unsigned int>` member and
`index2data` the `std::vector<T>` member. -/
structure BidirectionalIndexMap (T : Type) where
  data2index : List (T × Nat)
  index2data : List T
  deriving DecidableEq, Repr

namespace BidirectionalIndexMap

/-- A default-constructed map: both containers empty. -/
def empty (T : Type) : BidirectionalIndexMap T := ⟨[], []⟩

/-- `addDataWhenNotFound`: if the key is absent, record
`data2index[data] = index2data.size()` and push `data` onto `index2data`;
otherwise do nothing. -/
def addDataWhenNotFound {T : Type} [DecidableEq T]
    (m : BidirectionalIndexMap T) (data : T) : BidirectionalIndexMap T :=
  match lookupIdx m.data2index data with
  | some _ => m
  | none =>
    { data2index := m.data2index ++ [(data, m.index2data.length)]
      index2data := m.index2data ++ [data] }

/-- `getIndex`: throws ("Cannot find index for key") when the key is absent,
otherwise returns the index stored for the key. The source's success-path
return statement (line 237, `return *search;`) dereferences the iterator and
hence yields the whole key-index `std::pair`, which is ill-formed for the
declared `unsigned int` return type; the embedding returns the stored index
(`search->second`), which is what the function's own doc comment
("@return unsigned int index") and the upstream nntrainer source state. -/
def getIndex {T : Type} [DecidableEq T]
    (m : BidirectionalIndexMap T) (key : T) : Except Err Nat :=
  match lookupIdx m.data2index key with
  | none => Except.error Err.KeyNotFound
  | some i => Except.ok i

/-- `getData`: throws ("Cannot find data for index") when
`index >= index2data.size()`, otherwise returns `index2data[index]`. -/
def getData {T : Type} [DecidableEq T]
    (m : BidirectionalIndexMap T) (index : Nat) : Except Err T :=
  if h : index < m.index2data.length then
    Except.ok (m.index2data.get ⟨index, h⟩)
  else
    Except.error Err.IndexOutOfRange

/-- Inserting a whole list of values, left to right. -/
def insertList {T : Type} [DecidableEq T]
    (m : BidirectionalIndexMap T) (l : List T) : BidirectionalIndexMap T :=
  l.foldl addDataWhenNotFound m

/-- Coherence of the two directions: the hash-map entry for every key is
exactly the first position of that key in the vector. This holds for every
map reachable from `empty` through `addDataWhenNotFound`. -/
def Coherent {T : Type} [DecidableEq T] (m : BidirectionalIndexMap T) : Prop :=
  ∀ v, lookupIdx m.data2index v = firstIdx m.index2data v

end BidirectionalIndexMap

open BidirectionalIndexMap

theorem lookupIdx_append_of_found {T : Type} [DecidableEq T]
    (l l₂ : List (T × Nat)) (key : T) (i : Nat)
    (h : lookupIdx l key = some i) : lookupIdx (l ++ l₂) key = some i := by
  induction l with
  | nil => simp [lookupIdx] at h
  | cons p rest ih =>
    by_cases hk : key = p.1
    · simpa [lookupIdx, hk] using h
    · simp only [lookupIdx, hk, if_false, List.cons_append] at h ⊢
      exact ih h

theorem lookupIdx_append_of_none {T : Type} [DecidableEq T]
    (l l₂ : List (T × Nat)) (key : T)
    (h : lookupIdx l key = none) : lookupIdx (l ++ l₂) key = lookupIdx l₂ key := by
  induction l with
  | nil => rfl
  | cons p rest ih =>
    by_cases hk : key = p.1
    · simp [lookupIdx, hk] at h
    · simp only [lookupIdx, hk, if_false] at h
      simp only [List.cons_append, lookupIdx, hk, if_false]
      exact ih h

theorem firstIdx_append_of_found {T : Type} [DecidableEq T]
    (xs ys : List T) (key : T) (i : Nat)
    (h : firstIdx xs key = some i) : firstIdx (xs ++ ys) key = some i := by
  induction xs generalizing i with
  | nil => simp [firstIdx] at h
  | cons x rest ih =>
    by_cases hk : key = x
    · simpa [firstIdx, hk] using h
    · have hrj : ∃ j, firstIdx rest key = some j ∧ j + 1 = i := by
        cases hr : firstIdx rest key with
        | none => simp [firstIdx, hk, hr] at h
        | some j =>
          refine ⟨j, rfl, ?_⟩
          simpa [firstIdx, hk, hr] using h
      obtain ⟨j, hr, hji⟩ := hrj
      have hstep : firstIdx ((x :: rest) ++ ys) key
          = (firstIdx (rest ++ ys) key).map (· + 1) := by
        simp [firstIdx, hk]
      rw [hstep, ih j hr]
      simp [hji]

theorem firstIdx_append_of_none {T : Type} [DecidableEq T]
    (xs ys : List T) (key : T)
    (h : firstIdx xs key = none) :
    firstIdx (xs ++ ys) key = (firstIdx ys key).map (· + xs.length) := by
  induction xs with
  | nil =>
    cases h2 : firstIdx ys key <;> simp [h2]
  | cons x rest ih =>
    by_cases hk : key = x
    · simp [firstIdx, hk] at h
    · have hrest : firstIdx rest key = none := by
        cases hr : firstIdx rest key with
        | none => rfl
        | some j => simp [firstIdx, hk, hr] at h
      have hstep : firstIdx ((x :: rest) ++ ys) key
          = (firstIdx (rest ++ ys) key).map (· + 1) := by
        simp [firstIdx, hk]
      rw [hstep, ih hrest]
      cases h2 : firstIdx ys key with
      | none => rfl
      | some j => simp [Nat.add_assoc]

theorem coherent_empty {T : Type} [DecidableEq T] :
    Coherent (BidirectionalIndexMap.empty T) := by
  intro v
  rfl

theorem coherent_add {T : Type} [DecidableEq T]
    (m : BidirectionalIndexMap T) (d : T) (hm : Coherent m) :
    Coherent (addDataWhenNotFound m d) := by
  intro v
  unfold addDataWhenNotFound
  cases hd : lookupIdx m.data2index d with
  | some i => exact hm v
  | none =>
    simp only
    cases hv : lookupIdx m.data2index v with
    | some i =>
      rw [lookupIdx_append_of_found _ _ _ _ hv]
      have hfi : firstIdx m.index2data v = some i := by rw [← hm v]; exact hv
      rw [firstIdx_append_of_found _ _ _ _ hfi]
    | none =>
      rw [lookupIdx_append_of_none _ _ _ hv]
      have hfn : firstIdx m.index2data v = none := by rw [← hm v]; exact hv
      rw [firstIdx_append_of_none _ _ _ hfn]
      by_cases hk : v = d <;> simp [lookupIdx, firstIdx, hk]

theorem coherent_insertList {T : Type} [DecidableEq T]
    (l : List T) (m : BidirectionalIndexMap T) (hm : Coherent m) :
    Coherent (insertList m l) := by
  induction l generalizing m with
  | nil => exact hm
  | cons x xs ih => exact ih _ (coherent_add m x hm)

/-- Adding a present value is the identity on the whole state. -/
theorem add_present {T : Type} [DecidableEq T]
    (m : BidirectionalIndexMap T) (d : T) (i : Nat)
    (h : lookupIdx m.data2index d = some i) :
    addDataWhenNotFound m d = m := by
  unfold addDataWhenNotFound
  rw [h]

/-- Adding an absent value appends it to the value vector. -/
theorem add_fresh {T : Type} [DecidableEq T]
    (m : BidirectionalIndexMap T) (d : T)
    (h : lookupIdx m.data2index d = none) :
    (addDataWhenNotFound m d).index2data = m.index2data ++ [d] := by
  unfold addDataWhenNotFound
  rw [h]

/-- Inserting a duplicate-free list of values that are all fresh for the map
appends exactly that list to the value vector. -/
theorem insertList_fresh_nodup {T : Type} [DecidableEq T]
    (l : List T) (m : BidirectionalIndexMap T) (hm : Coherent m)
    (hnd : l.Nodup) (hfresh : ∀ x ∈ l, firstIdx m.index2data x = none) :
    (insertList m l).index2data = m.index2data ++ l := by
  induction l generalizing m with
  | nil => simp [insertList]
  | cons x xs ih =>
    have hx : lookupIdx m.data2index x = none := by
      rw [hm x]; exact hfresh x (by simp)
    have hstep : insertList m (x :: xs) = insertList (addDataWhenNotFound m x) xs := rfl
    have hadd : (addDataWhenNotFound m x).index2data = m.index2data ++ [x] :=
      add_fresh m x hx
    have hnd2 : xs.Nodup := (List.nodup_cons.mp hnd).2
    have hxnot : x ∉ xs := (List.nodup_cons.mp hnd).1
    have hfresh2 : ∀ y ∈ xs, firstIdx (addDataWhenNotFound m x).index2data y = none := by
      intro y hy
      rw [hadd]
      have hyfresh : firstIdx m.index2data y = none := hfresh y (by simp [hy])
      rw [firstIdx_append_of_none _ _ _ hyfresh]
      have hne : y ≠ x := by
        intro he
        exact hxnot (he ▸ hy)
      simp [firstIdx, hne]
    rw [hstep, ih _ (coherent_add m x hm) hnd2 hfresh2, hadd]
    simp

/-- In a duplicate-free list, the first index of the `i`-th element is `i`. -/
theorem firstIdx_get_nodup {T : Type} [DecidableEq T]
    (l : List T) (hnd : l.Nodup) (i : Nat) (hi : i < l.length) :
    firstIdx l (l.get ⟨i, hi⟩) = some i := by
  induction l generalizing i with
  | nil => simp at hi
  | cons x xs ih =>
    cases i with
    | zero => simp [firstIdx]
    | succ j =>
      have hj : j < xs.length := by simpa using hi
      have hget : (x :: xs).get ⟨j + 1, hi⟩ = xs.get ⟨j, hj⟩ := rfl
      have hxnot : x ∉ xs := (List.nodup_cons.mp hnd).1
      have hne : xs.get ⟨j, hj⟩ ≠ x := by
        intro he
        exact hxnot (he ▸ xs.get_mem j hj)
      rw [hget]
      simp only [firstIdx, hne, if_false, ih (List.nodup_cons.mp hnd).2 j hj]
      rfl

/-- C2: for every duplicate-free insertion sequence into a fresh Index Map,
`getIndex` returns the position of each value in the insertion sequence
(indices assigned in strict first-insertion order, starting at 0), and
`getData (getIndex v) = v` for every inserted value `v`. Proved over the
embedding whose `getIndex` success path follows the function's documented
return value; see `BidirectionalIndexMap.getIndex` for the source defect. -/
theorem indexMap_first_insertion_order {T : Type} [DecidableEq T]
    (l : List T) (hnd : l.Nodup) (i : Nat) (hi : i < l.length) :
    getIndex (insertList (BidirectionalIndexMap.empty T) l) (l.get ⟨i, hi⟩) = Except.ok i ∧
    getData (insertList (BidirectionalIndexMap.empty T) l) i = Except.ok (l.get ⟨i, hi⟩) := by
  have hco : Coherent (insertList (BidirectionalIndexMap.empty T) l) :=
    coherent_insertList l _ coherent_empty
  have hval : (insertList (BidirectionalIndexMap.empty T) l).index2data = l := by
    have := insertList_fresh_nodup l (BidirectionalIndexMap.empty T)
      coherent_empty hnd (by intro x _; rfl)
    simpa [BidirectionalIndexMap.empty] using this
  constructor
  · unfold getIndex
    rw [hco, hval, firstIdx_get_nodup l hnd i hi]
  · unfold getData
    have hlen : i < (insertList (BidirectionalIndexMap.empty T) l).index2data.length := by
      rw [hval]; exact hi
    rw [dif_pos hlen]
    congr 1
    have : (insertList (BidirectionalIndexMap.empty T) l).index2data.get ⟨i, hlen⟩
        = l.get ⟨i, hi⟩ := by
      apply List.get_of_eq hval
    exact this

/-- Witness for C2 at the concrete insertion sequence `[5, 7, 9]`, position 1. -/
theorem indexMap_first_insertion_order_witness :
    getIndex (insertList (BidirectionalIndexMap.empty Nat) [5, 7, 9]) 7 = Except.ok 1 ∧
    getData (insertList (BidirectionalIndexMap.empty Nat) [5, 7, 9]) 1 = Except.ok 7 :=
  indexMap_first_insertion_order [5, 7, 9] (by decide) 1 (by decide)

/-- C7: re-inserting a value already present in the map is a no-op — the whole
map state, hence the value's assigned index and the map's size, is unchanged. -/
theorem indexMap_add_idempotent {T : Type} [DecidableEq T]
    (m : BidirectionalIndexMap T) (v : T) (i : Nat)
    (h : lookupIdx m.data2index v = some i) :
    addDataWhenNotFound m v = m ∧
    getIndex (addDataWhenNotFound m v) v = getIndex m v ∧
    (addDataWhenNotFound m v).index2data.length = m.index2data.length := by
  have he : addDataWhenNotFound m v = m := add_present m v i h
  exact ⟨he, by rw [he], by rw [he]⟩

/-- Witness for C7: re-inserting 5 into the map holding exactly 5. -/
theorem indexMap_add_idempotent_witness :
    addDataWhenNotFound (addDataWhenNotFound (BidirectionalIndexMap.empty Nat) 5) 5
      = addDataWhenNotFound (BidirectionalIndexMap.empty Nat) 5 :=
  (indexMap_add_idempotent (addDataWhenNotFound (BidirectionalIndexMap.empty Nat) 5)
    5 0 (by decide)).1

/-- C8: querying `getIndex` for a never-inserted value fails with the
key-not-found error, and querying `getData` at an index at or beyond the
current size fails with the index-out-of-range error. Both accessors are
`const` member functions in the source and are embedded as pure functions of
the map, so neither query can mutate the map. -/
theorem indexMap_query_errors {T : Type} [DecidableEq T]
    (m : BidirectionalIndexMap T) (v : T) (i : Nat) :
    (lookupIdx m.data2index v = none → getIndex m v = Except.error Err.KeyNotFound) ∧
    (m.index2data.length ≤ i → getData m i = Except.error Err.IndexOutOfRange) := by
  constructor
  · intro h
    unfold getIndex
    rw [h]
  · intro h
    unfold getData
    rw [dif_neg (by omega)]

/-- Witness for C8: the map holding exactly 5 rejects a lookup of 7 and a
read at index 1. -/
theorem indexMap_query_errors_witness :
    getIndex (addDataWhenNotFound (BidirectionalIndexMap.empty Nat) 5) 7
        = Except.error Err.KeyNotFound ∧
    getData (addDataWhenNotFound (BidirectionalIndexMap.empty Nat) 5) 1
        = Except.error Err.IndexOutOfRange :=
  ⟨(indexMap_query_errors (addDataWhenNotFound (BidirectionalIndexMap.empty Nat) 5)
      7 1).1 (by decide),
   (indexMap_query_errors (addDataWhenNotFound (BidirectionalIndexMap.empty Nat) 5)
      7 1).2 (by decide)⟩

/-- A tensor as observed by this translation unit: `uninitialized()`,
`isAllocated()` and `getData()` (the address of the raw float buffer). -/
structure Tensor where
  uninitialized : Bool
  isAllocated : Bool
  getData : Ptr
  deriving DecidableEq, Repr

/-- A `const Var_Grad *`: the pointed-to object tagged with its address.
In a well-formed heap the address determines the object, so structural
equality of this record embeds pointer equality of the source.
`variableRef` embeds `getVariableRef()`. -/
structure Var_Grad where
  addr : Ptr
  variableRef : Tensor
  deriving DecidableEq, Repr

/-- A lowered operation node (`TfOpNode`): the three reference vectors hold
`const Var_Grad *` pointers, `op_type` the resolved operator kind. The
builtin-option members are never read on the paths under verification and
carry no observable state here. -/
structure TfOpNode where
  inputs : List Var_Grad
  outputs : List Var_Grad
  weights : List Var_Grad
  op_type : BuiltinOperator
  deriving DecidableEq, Repr

/-- Address of `TfOpIdxMap::empty_buffer`, the zero-length member array whose
address is the sentinel "no buffer" entry. It is distinct from every heap
tensor buffer in a real execution; no theorem below relies on that. -/
def empty_buffer : Ptr := 0

/-- `TfOpIdxMap`: the tuple of the three index maps (buffer map keyed by
`const float *`, opcode map keyed by `tflite::BuiltinOperator`, tensor map
keyed by `const Var_Grad *`), in the source's member order. -/
structure TfOpIdxMap where
  buffer_map : BidirectionalIndexMap Ptr
  opcode_map : BidirectionalIndexMap BuiltinOperator
  variable_map : BidirectionalIndexMap Var_Grad
  deriving DecidableEq, Repr

/-- The `update_opcode` lambda of the `TfOpIdxMap` constructor. -/
def update_opcode (m : BidirectionalIndexMap BuiltinOperator)
    (opcode : BuiltinOperator) : BidirectionalIndexMap BuiltinOperator :=
  m.addDataWhenNotFound opcode

/-- The `update_buffers` lambda: for each variable, add the raw data address
of its tensor to the buffer map when the tensor is initialized and
allocated. -/
def update_buffers :
    BidirectionalIndexMap Ptr → List Var_Grad → BidirectionalIndexMap Ptr
  | m, [] => m
  | m, v :: rest =>
    update_buffers
      (if !v.variableRef.uninitialized && v.variableRef.isAllocated then
        m.addDataWhenNotFound v.variableRef.getData
      else m) rest

/-- The `update_variables` lambda: add each variable pointer to the tensor
map. -/
def update_variables :
    BidirectionalIndexMap Var_Grad → List Var_Grad → BidirectionalIndexMap Var_Grad
  | m, [] => m
  | m, v :: rest => update_variables (m.addDataWhenNotFound v) rest

/-- One iteration of the constructor's node loop: `update_opcode`,
`update_variables` on inputs, outputs, weights (in that order), then
`update_buffers` on the weights. -/
def buildStep (m : TfOpIdxMap) (op_node : TfOpNode) : TfOpIdxMap :=
  { buffer_map := update_buffers m.buffer_map op_node.weights
    opcode_map := update_opcode m.opcode_map op_node.op_type
    variable_map :=
      update_variables
        (update_variables (update_variables m.variable_map op_node.inputs)
          op_node.outputs)
        op_node.weights }

/-- The `TfOpIdxMap(const TfOpNodes &nodes)` constructor: seed the buffer map
with the sentinel `empty_buffer`, then run the node loop once over the
ordered node sequence. -/
def TfOpIdxMap.build (nodes : List TfOpNode) : TfOpIdxMap :=
  let init : TfOpIdxMap :=
    { buffer_map :=
        (BidirectionalIndexMap.empty Ptr).addDataWhenNotFound empty_buffer
      opcode_map := BidirectionalIndexMap.empty BuiltinOperator
      variable_map := BidirectionalIndexMap.empty Var_Grad }
  nodes.foldl buildStep init

/-- Tensor references of one node in discovery order: inputs, outputs,
weights. -/
def nodeTensors (n : TfOpNode) : List Var_Grad :=
  n.inputs ++ n.outputs ++ n.weights

/-- The buffer identity a weight contributes: its tensor's raw data address
when the tensor is initialized and allocated, nothing otherwise. -/
def weightBuffer (v : Var_Grad) : Option Ptr :=
  if !v.variableRef.uninitialized && v.variableRef.isAllocated then
    some v.variableRef.getData
  else none

/-- Buffer identities contributed by one node's weights, in weight order. -/
def nodeWeightBuffers (n : TfOpNode) : List Ptr :=
  n.weights.filterMap weightBuffer

/-- Operator kinds in discovery order over the node sequence. -/
def discoveredOpcodes : List TfOpNode → List BuiltinOperator
  | [] => []
  | n :: rest => n.op_type :: discoveredOpcodes rest

/-- Tensor references in discovery order over the node sequence. -/
def discoveredTensors : List TfOpNode → List Var_Grad
  | [] => []
  | n :: rest => nodeTensors n ++ discoveredTensors rest

/-- Buffer identities in discovery order over the node sequence. -/
def discoveredBuffers : List TfOpNode → List Ptr
  | [] => []
  | n :: rest => nodeWeightBuffers n ++ discoveredBuffers rest

theorem insertList_nil {T : Type} [DecidableEq T]
    (m : BidirectionalIndexMap T) : insertList m [] = m := rfl

theorem insertList_cons {T : Type} [DecidableEq T]
    (m : BidirectionalIndexMap T) (x : T) (l : List T) :
    insertList m (x :: l) = insertList (addDataWhenNotFound m x) l := rfl

theorem insertList_append {T : Type} [DecidableEq T]
    (m : BidirectionalIndexMap T) (a b : List T) :
    insertList m (a ++ b) = insertList (insertList m a) b := by
  simp [insertList, List.foldl_append]

theorem update_variables_eq_insertList
    (m : BidirectionalIndexMap Var_Grad) (l : List Var_Grad) :
    update_variables m l = insertList m l := by
  induction l generalizing m with
  | nil => rfl
  | cons v rest ih => rw [update_variables, insertList_cons, ih]

theorem update_buffers_eq_insertList
    (m : BidirectionalIndexMap Ptr) (l : List Var_Grad) :
    update_buffers m l = insertList m (l.filterMap weightBuffer) := by
  induction l generalizing m with
  | nil => rfl
  | cons v rest ih =>
    rw [update_buffers, ih]
    by_cases hc : !v.variableRef.uninitialized && v.variableRef.isAllocated
    · simp [List.filterMap_cons, weightBuffer, hc, insertList_cons]
    · simp [List.filterMap_cons, weightBuffer, hc]

theorem buildStep_eq (m : TfOpIdxMap) (n : TfOpNode) :
    buildStep m n =
      { buffer_map := insertList m.buffer_map (nodeWeightBuffers n)
        opcode_map := insertList m.opcode_map [n.op_type]
        variable_map := insertList m.variable_map (nodeTensors n) } := by
  unfold buildStep
  rw [update_buffers_eq_insertList, update_variables_eq_insertList,
    update_variables_eq_insertList, update_variables_eq_insertList]
  congr 1
  rw [nodeTensors, insertList_append, insertList_append]

theorem build_foldl (nodes : List TfOpNode) (m : TfOpIdxMap) :
    nodes.foldl buildStep m =
      { buffer_map := insertList m.buffer_map (discoveredBuffers nodes)
        opcode_map := insertList m.opcode_map (discoveredOpcodes nodes)
        variable_map := insertList m.variable_map (discoveredTensors nodes) } := by
  induction nodes generalizing m with
  | nil => rfl
  | cons n rest ih =>
    rw [List.foldl_cons, ih, buildStep_eq]
    simp only [discoveredBuffers, discoveredOpcodes, discoveredTensors,
      insertList_append, insertList_cons, insertList_nil]

/-- C3: the cross-reference index construction is the single first-seen-wins
pass it claims to be — the final three maps are exactly the maps obtained by
inserting, into initially empty maps, the operator kinds in node order, the
tensor references in node order with inputs, outputs, weights discovered in
that order within a node, and (after the pre-seeded sentinel) the raw buffer
identities of exactly the initialized-and-allocated weights. In particular
the final index numbering is a function of the node sequence and these
discovery orders alone. -/
theorem tfOpIdxMap_single_pass_discovery (nodes : List TfOpNode) :
    TfOpIdxMap.build nodes =
      { buffer_map :=
          insertList (BidirectionalIndexMap.empty Ptr)
            (empty_buffer :: discoveredBuffers nodes)
        opcode_map :=
          insertList (BidirectionalIndexMap.empty BuiltinOperator)
            (discoveredOpcodes nodes)
        variable_map :=
          insertList (BidirectionalIndexMap.empty Var_Grad)
            (discoveredTensors nodes) } := by
  rw [TfOpIdxMap.build, build_foldl, insertList_cons]

theorem insertList_extends {T : Type} [DecidableEq T]
    (l : List T) (m : BidirectionalIndexMap T) :
    ∃ ext, (insertList m l).index2data = m.index2data ++ ext := by
  induction l generalizing m with
  | nil => exact ⟨[], by simp [insertList]⟩
  | cons x xs ih =>
    obtain ⟨ext, he⟩ := ih (addDataWhenNotFound m x)
    cases hl : lookupIdx m.data2index x with
    | some i =>
      refine ⟨ext, ?_⟩
      rw [insertList_cons, he, add_present m x i hl]
    | none =>
      refine ⟨x :: ext, ?_⟩
      rw [insertList_cons, he, add_fresh m x hl]
      simp

/-- C4: for every node sequence, the sentinel `empty_buffer` is at index 0 of
the buffer map, and when no weight contributes a buffer the buffer map holds
exactly one entry (the sentinel). -/
theorem buffer_map_sentinel_reserved (nodes : List TfOpNode) :
    getIndex (TfOpIdxMap.build nodes).buffer_map empty_buffer = Except.ok 0 ∧
    (discoveredBuffers nodes = [] →
      (TfOpIdxMap.build nodes).buffer_map.index2data.length = 1) := by
  have hbuf : (TfOpIdxMap.build nodes).buffer_map =
      insertList ((BidirectionalIndexMap.empty Ptr).addDataWhenNotFound empty_buffer)
        (discoveredBuffers nodes) := by
    rw [TfOpIdxMap.build, build_foldl]
  have hseed : ((BidirectionalIndexMap.empty Ptr).addDataWhenNotFound
      empty_buffer).index2data = [empty_buffer] := rfl
  constructor
  · have hco : Coherent ((insertList
        ((BidirectionalIndexMap.empty Ptr).addDataWhenNotFound empty_buffer)
        (discoveredBuffers nodes))) :=
      coherent_insertList _ _ (coherent_add _ _ coherent_empty)
    obtain ⟨ext, hext⟩ := insertList_extends (discoveredBuffers nodes)
      ((BidirectionalIndexMap.empty Ptr).addDataWhenNotFound empty_buffer)
    rw [hbuf]
    unfold getIndex
    rw [hco empty_buffer, hext, hseed]
    simp [firstIdx]
  · intro hempty
    rw [hbuf, hempty]
    rfl

/-- Witness for C4 at a one-node graph whose only weight is uninitialized:
the sentinel sits at index 0 and the buffer map has size 1. -/
theorem buffer_map_sentinel_reserved_witness :
    getIndex (TfOpIdxMap.build
        [{ inputs := [⟨1, ⟨false, true, 11⟩⟩]
           outputs := [⟨2, ⟨false, true, 12⟩⟩]
           weights := [⟨3, ⟨true, false, 13⟩⟩]
           op_type := BuiltinOperator.FULLY_CONNECTED }]).buffer_map
      empty_buffer = Except.ok 0 ∧
    (TfOpIdxMap.build
        [{ inputs := [⟨1, ⟨false, true, 11⟩⟩]
           outputs := [⟨2, ⟨false, true, 12⟩⟩]
           weights := [⟨3, ⟨true, false, 13⟩⟩]
           op_type := BuiltinOperator.FULLY_CONNECTED }]).buffer_map.index2data.length
      = 1 :=
  ⟨(buffer_map_sentinel_reserved _).1,
   (buffer_map_sentinel_reserved _).2 (by decide)⟩

/-- Modelled from the spec: ASCII `tolower` on one character, as used by
nntrainer's case-insensitive comparison. -/
def lowerChar (c : Char) : Char :=
  if 65 ≤ c.toNat && c.toNat ≤ 90 then Char.ofNat (c.toNat + 32) else c

/-- Modelled from the spec: nntrainer's case-insensitive string comparison
`istrequal`, declared in a utility header that is not part of src/; the spec
describes the type lookup as matching the layer's symbolic name
independently of case, i.e. the strings agree letterwise after `tolower`. -/
def istrequal (a b : String) : Bool :=
  a.data.map lowerChar == b.data.map lowerChar

/-- Modelled from the spec: `FullyConnectedLayer::type`, the registered type
string of the fully-connected layer (declared in fc_layer.h, not part of
src/); the spec names fully-connected as the supported operator kind. -/
def FullyConnectedLayer.type : String := "fully_connected"

/-- `TfOpNode::setOpType(const std::string &)`: the fully-connected layer
type (compared via `istrequal`) maps to `FULLY_CONNECTED`; any other string
throws "not supported type". -/
def TfOpNode.setOpType (type : String) : Except Err BuiltinOperator :=
  if istrequal type FullyConnectedLayer.type then
    Except.ok BuiltinOperator.FULLY_CONNECTED
  else
    Except.error Err.UnsupportedOperator

/-- An `std::shared_ptr<Var_Grad>`; `get` embeds `.get()`, the raw pointer
to the managed object. -/
structure SharedPtrVG where
  get : Var_Grad
  deriving DecidableEq, Repr

/-- The slice of `Layer` read by this translation unit: `getType()`,
`getInputRef()` and `getOutputRef()` (vectors of shared pointers) and
`getWeightsRef()` (a vector of weight objects; `setWeights` stores each
element's address, i.e. a `const Var_Grad *`). -/
structure Layer where
  type : String
  inputRef : List SharedPtrVG
  outputRef : List SharedPtrVG
  weightsRef : List Var_Grad
  deriving DecidableEq, Repr

/-- A node of the sorted graph; `getObject()` yields its layer. -/
structure LayerNode where
  getObject : Layer
  deriving DecidableEq, Repr

/-- The finalized `GraphRepresentation`; `getSorted()` is its topologically
sorted node sequence. -/
structure GraphRepresentation where
  getSorted : List LayerNode
  deriving DecidableEq, Repr

/-- The `TfOpNode(const Layer &)` constructor: `setInputs` and `setOutputs`
copy the raw pointers out of the shared pointers, `setWeights` stores the
addresses of the weight objects, and `setOpType` resolves the type string,
throwing on an unsupported one (the partially built node is then discarded
by unwinding, embedded here by the error result). -/
def TfOpNode.ofLayer (layer : Layer) : Except Err TfOpNode :=
  match TfOpNode.setOpType layer.type with
  | Except.error e => Except.error e
  | Except.ok op =>
    Except.ok
      { inputs := layer.inputRef.map SharedPtrVG.get
        outputs := layer.outputRef.map SharedPtrVG.get
        weights := layer.weightsRef
        op_type := op }

/-- A loop body that may throw: the loop stops at the first exception.
Embeds the range-for of `buildOpNodes`. -/
def mapExcept {A B : Type} (f : A → Except Err B) : List A → Except Err (List B)
  | [] => Except.ok []
  | x :: xs =>
    match f x with
    | Except.error e => Except.error e
    | Except.ok y =>
      match mapExcept f xs with
      | Except.error e => Except.error e
      | Except.ok ys => Except.ok (y :: ys)

/-- `buildOpNodes`: emplace one `TfOpNode` per sorted graph node, in sort
order. -/
def buildOpNodes (representation : GraphRepresentation) :
    Except Err (List TfOpNode) :=
  mapExcept (fun ln => TfOpNode.ofLayer ln.getObject) representation.getSorted

/-- An entry of the operator-code section (`tflite::OperatorCode`). -/
structure OperatorCodeT where
  builtin_code : BuiltinOperator
  deriving DecidableEq, Repr

/-- An operator entry of the subgraph section (`tflite::Operator`). -/
structure OperatorT where
  opcode_index : Nat
  op_inputs : List Nat
  op_outputs : List Nat
  deriving DecidableEq, Repr

/-- The subgraph section (`tflite::SubGraph`). -/
structure SubGraphT where
  tensors : List Nat
  operators : List OperatorT
  sg_inputs : List Nat
  sg_outputs : List Nat
  deriving DecidableEq, Repr

/-- The root `tflite::Model` table; a field is `none` while no builder call
has set it (a flatbuffer optional field left absent serializes as an empty
section). -/
structure Model where
  version : Option Nat
  description : Option String
  operator_codes : Option (List OperatorCodeT)
  buffers : Option (List (List Nat))
  subgraphs : Option (List SubGraphT)
  deriving DecidableEq, Repr

/-- `buildBuffers`: the body is a stub marked NYI that returns a
default-constructed (null) offset. -/
def buildBuffers (map : TfOpIdxMap) : Option (List (List Nat)) := none

/-- `buildOperatorCodes`: the body is a stub marked NYI that returns a
default-constructed (null) offset. -/
def buildOperatorCodes (map : TfOpIdxMap) : Option (List OperatorCodeT) :=
  none

/-- `buildSubGraph`: the body is a stub marked NYI that returns a
default-constructed (null) offset. -/
def buildSubGraph (nodes : List TfOpNode) (map : TfOpIdxMap) :
    Option (List SubGraphT) := none

/-- A freshly constructed `tflite::ModelBuilder`: no field set yet. -/
def ModelBuilder.start : Model :=
  { version := none
    description := none
    operator_codes := none
    buffers := none
    subgraphs := none }

/-- `ModelBuilder::add_version`. -/
def Model.add_version (m : Model) (v : Nat) : Model :=
  { m with version := some v }

/-- `ModelBuilder::add_description`. -/
def Model.add_description (m : Model) (d : String) : Model :=
  { m with description := some d }

/-- The `WILL(x)` macro expands to a bare `;`: its argument is not compiled,
so the builder state passes through unchanged. The three section-add calls
of `serialize` (`add_operator_codes`, `add_buffers`, `add_subgraphs`) are
wrapped in it. -/
def WILL (m : Model) : Model := m

/-- The tflite file identifier returned by `tflite::ModelIdentifier()`
("TFL3" per the external schema). -/
def ModelIdentifier : String := "TFL3"

/-- The byte buffer held by the flatbuffer builder after
`fbb.Finish(model, tflite::ModelIdentifier())`: the root table plus the
file identifier. -/
structure FinishedBuffer where
  model : Model
  identifier : String
  deriving DecidableEq, Repr

/-- The description string literal of `serialize`. -/
def descriptionText : String := "This file is generated from NNTrainer"

/-- The in-memory phase of `TfliteInterpreter::serialize`, up to and
including `fbb.Finish`: lower the graph (`buildOpNodes`), build the
`TfOpIdxMap`, run the three NYI section builders (their results are marked
UNUSED), then drive the model builder — the three section adds sit inside
`WILL` and vanish, leaving only `add_version(3)` and `add_description`. -/
def serializeModel (representation : GraphRepresentation) :
    Except Err FinishedBuffer :=
  match buildOpNodes representation with
  | Except.error e => Except.error e
  | Except.ok opNodes =>
    let map := TfOpIdxMap.build opNodes
    let _opcodes := buildOperatorCodes map
    let _buffers := buildBuffers map
    let _subgraph := buildSubGraph opNodes map
    let model_builder := ModelBuilder.start
    let model_builder := WILL model_builder
    let model_builder := WILL model_builder
    let model_builder := WILL model_builder
    let model_builder := Model.add_version model_builder 3
    let model_builder := Model.add_description model_builder descriptionText
    Except.ok { model := model_builder, identifier := ModelIdentifier }

/-- Contents of the destination path: `none` when the file does not exist. -/
abbrev FileState := Option FinishedBuffer

/-- `builder2file(builder, out)`: verify the finished buffer against the
external schema — `tflite::VerifyModelBuffer` is generated from the schema
outside this repository and is passed in as the collaborator `verify` —
throwing before any file operation when verification fails; then open the
destination for binary writing (`openOk` says whether the environment lets
the open succeed), throwing the I/O error when it cannot; then write the
whole buffer and close. -/
def builder2file (verify : FinishedBuffer → Bool) (openOk : Bool)
    (builder : FinishedBuffer) (fs : FileState) :
    Except Err Unit × FileState :=
  if !verify builder then
    (Except.error Err.VerificationFailed, fs)
  else if !openOk then
    (Except.error Err.IOFailure, fs)
  else
    (Except.ok (), some builder)

/-- `TfliteInterpreter::serialize(representation, out)`: the in-memory build
followed by `builder2file`; any exception thrown during the in-memory phase
propagates before the file step is reached. -/
def serialize (verify : FinishedBuffer → Bool) (openOk : Bool)
    (representation : GraphRepresentation) (fs : FileState) :
    Except Err Unit × FileState :=
  match serializeModel representation with
  | Except.error e => (Except.error e, fs)
  | Except.ok buf => builder2file verify openOk buf fs

theorem setOpType_error_eq (ty : String) (e : Err)
    (h : TfOpNode.setOpType ty = Except.error e) :
    e = Err.UnsupportedOperator := by
  unfold TfOpNode.setOpType at h
  by_cases hc : istrequal ty FullyConnectedLayer.type = true
  · simp [hc] at h
  · simp only [Bool.not_eq_true] at hc
    simp [hc] at h
    exact h.symm

theorem ofLayer_error_eq (layer : Layer) (e : Err)
    (h : TfOpNode.ofLayer layer = Except.error e) :
    e = Err.UnsupportedOperator := by
  unfold TfOpNode.ofLayer at h
  cases hs : TfOpNode.setOpType layer.type with
  | error e2 =>
    rw [hs] at h
    simp only [Except.error.injEq] at h
    rw [← h]
    exact setOpType_error_eq layer.type e2 hs
  | ok op =>
    rw [hs] at h
    simp at h

theorem ofLayer_ok_fields (layer : Layer) (n : TfOpNode)
    (h : TfOpNode.ofLayer layer = Except.ok n) :
    n.inputs = layer.inputRef.map SharedPtrVG.get ∧
    n.outputs = layer.outputRef.map SharedPtrVG.get ∧
    n.weights = layer.weightsRef ∧
    TfOpNode.setOpType layer.type = Except.ok n.op_type := by
  unfold TfOpNode.ofLayer at h
  cases hs : TfOpNode.setOpType layer.type with
  | error e => rw [hs] at h; simp at h
  | ok op =>
    rw [hs] at h
    simp only [Except.ok.injEq] at h
    subst h
    exact ⟨rfl, rfl, rfl, rfl⟩

theorem mapExcept_ok_of_forall {A B : Type} (f : A → Except Err B)
    (l : List A) (h : ∀ x ∈ l, ∃ y, f x = Except.ok y) :
    ∃ ys, mapExcept f l = Except.ok ys ∧
      List.Forall₂ (fun x y => f x = Except.ok y) l ys := by
  induction l with
  | nil => exact ⟨[], rfl, List.Forall₂.nil⟩
  | cons x xs ih =>
    obtain ⟨y, hy⟩ := h x (by simp)
    obtain ⟨ys, hys, hfa⟩ := ih (fun z hz => h z (by simp [hz]))
    refine ⟨y :: ys, ?_, List.Forall₂.cons hy hfa⟩
    simp only [mapExcept, hy, hys]

theorem mapExcept_ofLayer_error (l : List LayerNode)
    (h : ∃ ln ∈ l, ∃ e, TfOpNode.ofLayer ln.getObject = Except.error e) :
    mapExcept (fun ln => TfOpNode.ofLayer ln.getObject) l
      = Except.error Err.UnsupportedOperator := by
  induction l with
  | nil =>
    obtain ⟨ln, hmem, _⟩ := h
    simp at hmem
  | cons x xs ih =>
    cases hx : TfOpNode.ofLayer x.getObject with
    | error e =>
      have he : e = Err.UnsupportedOperator := ofLayer_error_eq _ _ hx
      subst he
      simp only [mapExcept, hx]
    | ok y =>
      obtain ⟨ln, hmem, e, he⟩ := h
      have hmem2 : ln ∈ xs := by
        rcases List.mem_cons.mp hmem with hl | hl
        · subst hl
          rw [he] at hx
          cases hx
        · exact hl
      have hrec := ih ⟨ln, hmem2, e, he⟩
      simp only [mapExcept, hx, hrec]

/-- C5: for every graph holding a node whose operator type does not resolve,
`serialize` fails with the unsupported-operator error, whatever the verifier
and the I/O environment, and the destination file state is returned exactly
as it was — the failure happens during lowering, before any file operation. -/
theorem serialize_unsupported_op_aborts (verify : FinishedBuffer → Bool)
    (openOk : Bool) (g : GraphRepresentation) (fs : FileState)
    (h : ∃ ln ∈ g.getSorted,
      TfOpNode.setOpType ln.getObject.type = Except.error Err.UnsupportedOperator) :
    serialize verify openOk g fs = (Except.error Err.UnsupportedOperator, fs) := by
  have hb : buildOpNodes g = Except.error Err.UnsupportedOperator := by
    apply mapExcept_ofLayer_error
    obtain ⟨ln, hm, he⟩ := h
    refine ⟨ln, hm, Err.UnsupportedOperator, ?_⟩
    unfold TfOpNode.ofLayer
    rw [he]
  have hm2 : serializeModel g = Except.error Err.UnsupportedOperator := by
    unfold serializeModel
    rw [hb]
  unfold serialize
  rw [hm2]

/-- A one-node graph whose layer type resolves to no operator kind. -/
def gBad : GraphRepresentation := ⟨[⟨⟨"conv2d", [], [], []⟩⟩]⟩

/-- Witness for C5: exporting `gBad` fails with the unsupported-operator
error and leaves an absent destination file absent. -/
theorem serialize_unsupported_op_aborts_witness :
    serialize (fun _ => true) true gBad none
      = (Except.error Err.UnsupportedOperator, none) :=
  serialize_unsupported_op_aborts (fun _ => true) true gBad none
    ⟨⟨⟨"conv2d", [], [], []⟩⟩, by simp [gBad], by rfl⟩

/-- C6: whenever schema verification rejects the finished buffer, the writer
fails with the verification-failed error and the destination file state is
returned exactly as it was — the verifier runs before the file is opened,
so a failing buffer causes no open and no write. -/
theorem builder2file_verify_before_write (verify : FinishedBuffer → Bool)
    (openOk : Bool) (builder : FinishedBuffer) (fs : FileState)
    (h : verify builder = false) :
    builder2file verify openOk builder fs
      = (Except.error Err.VerificationFailed, fs) := by
  simp [builder2file, h]

/-- Witness for C6 with an always-rejecting verifier and an absent file. -/
theorem builder2file_verify_before_write_witness :
    builder2file (fun _ => false) true ⟨ModelBuilder.start, ModelIdentifier⟩ none
      = (Except.error Err.VerificationFailed, none) :=
  builder2file_verify_before_write (fun _ => false) true
    ⟨ModelBuilder.start, ModelIdentifier⟩ none rfl

/-- C9: on a graph whose node types all resolve, lowering produces exactly
one operation node per sorted graph node, in sort order, and each node's
input, output and weight vectors hold precisely the pointers of the layer's
referenced objects (shared-pointer `get` for inputs and outputs, the weight
objects' addresses for weights) — copied by pointer, not by value — with the
node's operator kind the resolution of the layer's type string. -/
theorem buildOpNodes_one_node_per_layer (g : GraphRepresentation)
    (h : ∀ ln ∈ g.getSorted,
      ∃ op, TfOpNode.setOpType ln.getObject.type = Except.ok op) :
    ∃ ns, buildOpNodes g = Except.ok ns ∧
      ns.length = g.getSorted.length ∧
      List.Forall₂
        (fun ln n =>
          n.inputs = ln.getObject.inputRef.map SharedPtrVG.get ∧
          n.outputs = ln.getObject.outputRef.map SharedPtrVG.get ∧
          n.weights = ln.getObject.weightsRef ∧
          TfOpNode.setOpType ln.getObject.type = Except.ok n.op_type)
        g.getSorted ns := by
  have hall : ∀ ln ∈ g.getSorted, ∃ n, TfOpNode.ofLayer ln.getObject = Except.ok n := by
    intro ln hln
    obtain ⟨op, hop⟩ := h ln hln
    refine ⟨{ inputs := ln.getObject.inputRef.map SharedPtrVG.get
              outputs := ln.getObject.outputRef.map SharedPtrVG.get
              weights := ln.getObject.weightsRef
              op_type := op }, ?_⟩
    unfold TfOpNode.ofLayer
    rw [hop]
  obtain ⟨ns, hns, hfa⟩ := mapExcept_ok_of_forall _ g.getSorted hall
  refine ⟨ns, hns, hfa.length_eq.symm, ?_⟩
  exact hfa.imp (fun ln n hln => ofLayer_ok_fields ln.getObject n hln)

/-- A one-node fully-connected graph with one input, output and weight. -/
def gFC : GraphRepresentation :=
  ⟨[⟨⟨"fully_connected",
      [⟨⟨10, ⟨false, true, 100⟩⟩⟩],
      [⟨⟨20, ⟨false, true, 200⟩⟩⟩],
      [⟨30, ⟨false, true, 300⟩⟩]⟩⟩]⟩

/-- Witness for C9 at the concrete one-node graph `gFC`. -/
theorem buildOpNodes_one_node_per_layer_witness :
    ∃ ns, buildOpNodes gFC = Except.ok ns ∧
      ns.length = gFC.getSorted.length ∧
      List.Forall₂
        (fun ln n =>
          n.inputs = ln.getObject.inputRef.map SharedPtrVG.get ∧
          n.outputs = ln.getObject.outputRef.map SharedPtrVG.get ∧
          n.weights = ln.getObject.weightsRef ∧
          TfOpNode.setOpType ln.getObject.type = Except.ok n.op_type)
        gFC.getSorted ns :=
  buildOpNodes_one_node_per_layer gFC
    (by
      intro ln hln
      have hln2 : ln = gFC.getSorted.head (by simp [gFC]) := by
        simpa [gFC] using hln
      subst hln2
      exact ⟨BuiltinOperator.FULLY_CONNECTED, by rfl⟩)

/-- Number of distinct operator kinds across the lowered nodes of a graph. -/
def distinctOpKindCount (g : GraphRepresentation) : Nat :=
  match buildOpNodes g with
  | Except.error _ => 0
  | Except.ok ns => (discoveredOpcodes ns).dedup.length

/-- Length of the operator-kind table actually packed into the root table
(0 when the field was never set). -/
def packedOperatorCodeCount (m : Model) : Nat :=
  match m.operator_codes with
  | none => 0
  | some l => l.length

/-- Length of the operator list of the first packed subgraph (0 when no
subgraph section was packed). -/
def packedSubgraphOperatorCount (m : Model) : Nat :=
  match m.subgraphs with
  | none => 0
  | some [] => 0
  | some (sg :: _) => sg.operators.length

/-- Counterexample to C1 at the one-node graph `gFC`: serialization of the
in-memory container succeeds, but the assembled root table packs no
operator-kind table and no subgraph (both counts are 0), while the graph has
one distinct operator kind and one node — so the claimed section lengths do
not hold. -/
theorem serialize_sections_unbuilt_cex :
    serializeModel gFC = Except.ok
      ⟨⟨some 3, some descriptionText, none, none, none⟩, ModelIdentifier⟩ ∧
    packedOperatorCodeCount ⟨some 3, some descriptionText, none, none, none⟩ = 0 ∧
    packedSubgraphOperatorCount ⟨some 3, some descriptionText, none, none, none⟩ = 0 ∧
    distinctOpKindCount gFC = 1 ∧
    gFC.getSorted.length = 1 :=
  ⟨rfl, rfl, rfl, rfl, rfl⟩

/-- C1 as amended: for every graph whose node types all resolve, the
in-memory build succeeds and assembles, in one pass, a root container whose
schema version is 3 and whose description is the fixed string, finished with
the tflite file identifier; but since the three section builders are NYI
stubs and the section-add calls are disabled by the `WILL` macro, the
operator-kind table, buffer table and subgraph sections are all left absent
regardless of the graph. -/
theorem serialize_assembles_versioned_container (g : GraphRepresentation)
    (h : ∀ ln ∈ g.getSorted,
      ∃ op, TfOpNode.setOpType ln.getObject.type = Except.ok op) :
    serializeModel g = Except.ok
      ⟨⟨some 3, some descriptionText, none, none, none⟩, ModelIdentifier⟩ := by
  have hall : ∀ ln ∈ g.getSorted, ∃ n, TfOpNode.ofLayer ln.getObject = Except.ok n := by
    intro ln hln
    obtain ⟨op, hop⟩ := h ln hln
    refine ⟨{ inputs := ln.getObject.inputRef.map SharedPtrVG.get
              outputs := ln.getObject.outputRef.map SharedPtrVG.get
              weights := ln.getObject.weightsRef
              op_type := op }, ?_⟩
    unfold TfOpNode.ofLayer
    rw [hop]
  obtain ⟨ns, hns, _⟩ := mapExcept_ok_of_forall _ g.getSorted hall
  unfold serializeModel
  rw [show buildOpNodes g = Except.ok ns from hns]
  rfl

/-- Witness for the amended C1 at the concrete graph `gFC`. -/
theorem serialize_assembles_versioned_container_witness :
    serializeModel gFC = Except.ok
      ⟨⟨some 3, some descriptionText, none, none, none⟩, ModelIdentifier⟩ :=
  serialize_assembles_versioned_container gFC
    (by
      intro ln hln
      have hln2 : ln = gFC.getSorted.head (by simp [gFC]) := by
        simpa [gFC] using hln
      subst hln2
      exact ⟨BuiltinOperator.FULLY_CONNECTED, by rfl⟩)

/-- C10: symbolic operator-type resolution succeeds for exactly one
operator — a type string case-insensitively equal to the fully-connected
layer type maps to FULLY_CONNECTED, every other string fails with the
unsupported-operator error, and no other operator kind is ever produced. -/
theorem setOpType_exactly_fully_connected (ty : String) :
    (istrequal ty FullyConnectedLayer.type = true →
      TfOpNode.setOpType ty = Except.ok BuiltinOperator.FULLY_CONNECTED) ∧
    (istrequal ty FullyConnectedLayer.type = false →
      TfOpNode.setOpType ty = Except.error Err.UnsupportedOperator) ∧
    (∀ op, TfOpNode.setOpType ty = Except.ok op →
      op = BuiltinOperator.FULLY_CONNECTED) := by
  unfold TfOpNode.setOpType
  cases h : istrequal ty FullyConnectedLayer.type <;> simp [h]

/-- Witness for C10: a case-varied fully-connected string resolves, a foreign
string is rejected. -/
theorem setOpType_exactly_fully_connected_witness :
    TfOpNode.setOpType "Fully_Connected"
      = Except.ok BuiltinOperator.FULLY_CONNECTED ∧
    TfOpNode.setOpType "conv2d" = Except.error Err.UnsupportedOperator :=
  ⟨(setOpType_exactly_fully_connected "Fully_Connected").1 (by rfl),
   (setOpType_exactly_fully_connected "conv2d").2.1 (by rfl)⟩

end NntrainerTfl
